import Mathlib

namespace Manilua

/-!
Verification of the manilua plugin backend (Python) against its design
specification.  The Python modules `manilua.py`, `http_client.py` and
`api_manager.py` are shallowly embedded below: dictionaries become partial
maps `String → Option Val`, the per-item download-state store becomes a
function from item ids to such maps, thread-serialized mutation under the
store lock becomes a fold over a list of updates, and the effectful download
worker becomes a pure function from an environment (describing the outcome
of each external call) to the list of state writes it performs, each paired
with whether the per-item scratch file exists at the moment of the write.
-/

/-- Values that the backend stores in a download-state dictionary. -/
inductive Val where
  | str (s : String)
  | nat (n : Nat)
  | bool (b : Bool)
  | strList (l : List String)
  deriving DecidableEq

/-- A Python dict used as a (partial) state record: field name to value. -/
def StateRec := String → Option Val

/-- Build a record from an association list (first binding wins). -/
def lookupField : List (String × Val) → String → Option Val
  | [], _ => none
  | (k', v) :: rest, k => if k' = k then some v else lookupField rest k

/-- A record literal, as written at the Python call sites. -/
def mkRec (l : List (String × Val)) : StateRec := fun k => lookupField l k

/-- Python `state.update(update)`: fields of `upd` win, all others kept. -/
def dictUpdate (st upd : StateRec) : StateRec := fun k =>
  match upd k with
  | some v => some v
  | none => st k

/-- The `_download_state` map of `maniluaManager`, keyed by appid. -/
def Store := Nat → StateRec

/-- The store before any download was ever recorded. -/
def initStore : Store := fun _ _ => none

/-- Embedding of `maniluaManager._set_download_state` (manilua.py:27-31):
under the store lock, read the entry for `appid` (empty if absent), merge
the partial update into it, and write it back. -/
def _set_download_state (store : Store) (appid : Nat) (upd : StateRec) : Store :=
  fun i => if i = appid then dictUpdate (store i) upd else store i

/-- A sequence of lock-serialized updates (as produced by any interleaving
of concurrent workers, since every update runs under `_download_lock`). -/
def applyUpdates (store : Store) (upds : List (Nat × StateRec)) : Store :=
  upds.foldl (fun s u => _set_download_state s u.1 u.2) store

/-- Result dictionary of the caller-facing operations. -/
structure CallResult where
  success : Bool
  error : Option String
  deriving DecidableEq

/-- Embedding of `maniluaManager.select_endpoint_and_download`
(manilua.py:320-348).  Returns the call result, the store after the call,
and the download that was spawned on a worker thread, if any. -/
def select_endpoint_and_download (store : Store) (appid : Nat)
    (selected_endpoint : String) : CallResult × Store × Option (Nat × String) :=
  let state := store appid
  if state "status" ≠ some (Val.str "awaiting_endpoint_choice") then
    (⟨false, some "Not awaiting endpoint choice"⟩, store, none)
  else
    let available_endpoints : List String :=
      match state "available_endpoints" with
      | some (Val.strList l) => l
      | _ => []
    if selected_endpoint ∈ available_endpoints then
      (⟨true, none⟩, store, some (appid, selected_endpoint))
    else
      (⟨false, some ("Endpoint " ++ selected_endpoint ++ " not available")⟩,
        store, none)

/-- A store holding one item parked in `awaiting_endpoint_choice` with
available endpoints `["a", "b"]`. -/
def c4store : Store :=
  _set_download_state initStore 1
    (mkRec [("status", Val.str "awaiting_endpoint_choice"),
            ("available_endpoints", Val.strList ["a", "b"])])

/-! ### Resilient HTTP transport (`http_client.py`) -/

/-- What one attempt of the retrying transport observes:
the response passed `raise_for_status` (`ok`), `raise_for_status` raised an
`HTTPStatusError` (`httpError`), or a connection-level / other exception
was raised (`connError`). -/
inductive AttemptOutcome where
  | ok (data : String) (code : Nat)
  | httpError (code : Nat) (text : String)
  | connError (msg : String)
  deriving DecidableEq

/-- Result dictionary of `HTTPClient._retry_request`. -/
structure RequestResult where
  success : Bool
  data : Option String
  error : Option String
  status_code : Option Nat
  deriving DecidableEq

/-- The error dictionary `_retry_request` builds on the final attempt. -/
def finalAttemptResult : AttemptOutcome → RequestResult
  | AttemptOutcome.ok data code => ⟨true, some data, none, some code⟩
  | AttemptOutcome.httpError code text =>
      ⟨false, none, some ("HTTP " ++ toString code ++ ": " ++ text), some code⟩
  | AttemptOutcome.connError msg => ⟨false, none, some msg, none⟩

/-- Embedding of the loop body of `HTTPClient._retry_request`
(http_client.py:32-103), starting at attempt index `attempt`:
a successful attempt returns immediately; a failed attempt returns the
attempt's error if it was the last allowed attempt and otherwise retries. -/
def retryFrom (outcomes : Nat → AttemptOutcome) (max_retries attempt : Nat) :
    RequestResult :=
  if _h : attempt < max_retries then
    match outcomes attempt with
    | AttemptOutcome.ok data code => ⟨true, some data, none, some code⟩
    | AttemptOutcome.httpError code text =>
        if attempt = max_retries - 1 then
          ⟨false, none, some ("HTTP " ++ toString code ++ ": " ++ text), some code⟩
        else retryFrom outcomes max_retries (attempt + 1)
    | AttemptOutcome.connError msg =>
        if attempt = max_retries - 1 then ⟨false, none, some msg, none⟩
        else retryFrom outcomes max_retries (attempt + 1)
  else ⟨false, none, some "All retry attempts failed", none⟩
termination_by max_retries - attempt
decreasing_by all_goals omega

/-- Embedding of `HTTPClient._retry_request`: run the attempts from index 0. -/
def _retry_request (outcomes : Nat → AttemptOutcome) (max_retries : Nat) :
    RequestResult :=
  retryFrom outcomes max_retries 0

/-- An attempt outcome that raised (either kind of exception). -/
def attemptFailed : AttemptOutcome → Bool
  | AttemptOutcome.ok _ _ => false
  | _ => true

/-- A concrete attempt schedule: connection errors, then a success. -/
def c5outcomes : Nat → AttemptOutcome
  | 0 => AttemptOutcome.connError "Connection reset"
  | 1 => AttemptOutcome.connError "Connection timed out"
  | _ => AttemptOutcome.ok "payload" 200

/-- A concrete attempt schedule where every attempt fails. -/
def c5failing : Nat → AttemptOutcome
  | 0 => AttemptOutcome.connError "Connection reset"
  | _ => AttemptOutcome.httpError 503 "unavailable"

/-! ### API manager (`api_manager.py`) -/

/-- Result dictionary of `APIManager._fetch_user_id` / `get_user_id`. -/
structure UserIdResult where
  success : Bool
  userId : Option String
  error : Option String
  deriving DecidableEq

/-- The mutable fields of `APIManager` relevant to the user-id cache. -/
structure APIState where
  api_key : Option String
  user_id_cache : Option UserIdResult
  user_id_cache_time : Int

/-- Embedding of `APIManager.set_api_key` (api_manager.py:18-21): store the
key and clear the user-id cache and its timestamp. -/
def set_api_key (_s : APIState) (api_key : String) : APIState :=
  ⟨some api_key, none, 0⟩

/-- Embedding of `APIManager._fetch_user_id` (api_manager.py:126-159):
with no key configured it fails locally; otherwise the outcome of the
validation call is given by the environment `validate`. -/
def _fetch_user_id (validate : String → UserIdResult) (key : Option String) :
    UserIdResult :=
  match key with
  | none => ⟨false, none, some "No API key available"⟩
  | some k => validate k

/-- Embedding of `APIManager.get_user_id` (api_manager.py:112-124): serve
from the cache when it is populated and fresh (unless forced), otherwise
fetch, caching the result only when it is successful. -/
def get_user_id (validate : String → UserIdResult) (cache_ttl : Int)
    (s : APIState) (now : Int) (force_refresh : Bool) :
    UserIdResult × APIState :=
  if force_refresh = false ∧ s.user_id_cache.isSome ∧
      now - s.user_id_cache_time < cache_ttl then
    (s.user_id_cache.getD ⟨false, none, none⟩, s)
  else
    let result := _fetch_user_id validate s.api_key
    if result.success then (result, ⟨s.api_key, some result, now⟩)
    else (result, s)

/-! ### String primitives used by the backend (Python `str` methods) -/

/-- Python `s.endswith(suf)`. -/
def strEndsWith (s suf : String) : Bool := decide (suf.data <:+ s.data)

/-- Python `s.startswith(pre)`. -/
def strStartsWith (s pre : String) : Bool := decide (pre.data <+: s.data)

/-- Python `s.lower()` (ASCII case folding suffices for the names used). -/
def strToLower (s : String) : String := ⟨s.data.map Char.toLower⟩

/-! ### Removal (`maniluaManager.remove_via_lua`) -/

/-- Result dictionary of `maniluaManager.remove_via_lua`; on failure the
Python dict has no `removed_files` key, modelled as the empty list. -/
structure RemoveResult where
  success : Bool
  message : Option String
  error : Option String
  removed_files : List String
  deriving DecidableEq

/-- The manifest-file test of the removal loop (manilua.py:452):
`filename.startswith(f'{appid}_') and filename.endswith('.manifest')`. -/
def manifestMatch (appid : Nat) (f : String) : Bool :=
  strStartsWith f (toString appid ++ "_") && strEndsWith f ".manifest"

/-- A file name the removal operation targets for the given id. -/
def idDerived (appid : Nat) (f : String) : Bool :=
  (f == toString appid ++ ".lua") || (f == toString appid ++ ".lua.disabled")
    || manifestMatch appid f

/-- Embedding of `maniluaManager.remove_via_lua` (manilua.py:429-466) on a
directory listing: remove `<id>.lua` if present, then `<id>.lua.disabled`
if present, then every `<id>_*.manifest` file; return the result dictionary
together with the directory contents afterwards. -/
def remove_via_lua (stplug_files : List String) (appid : Nat) :
    RemoveResult × List String :=
  let lua_name := toString appid ++ ".lua"
  let disabled_name := toString appid ++ ".lua.disabled"
  let r1 : List String := if lua_name ∈ stplug_files then [lua_name] else []
  let fs1 : List String :=
    if lua_name ∈ stplug_files then
      stplug_files.filter (fun f => !(f == lua_name))
    else stplug_files
  let r2 : List String := if disabled_name ∈ fs1 then r1 ++ [disabled_name] else r1
  let fs2 : List String :=
    if disabled_name ∈ fs1 then fs1.filter (fun f => !(f == disabled_name))
    else fs1
  let removed_files := r2 ++ fs2.filter (manifestMatch appid)
  let fs3 := fs2.filter (fun f => !(manifestMatch appid f))
  (if removed_files.isEmpty then
    ⟨false, none, some ("No files found for app " ++ toString appid), []⟩
  else
    ⟨true, some ("Removed " ++ toString removed_files.length ++ " files"),
      none, removed_files⟩, fs3)

/-! ### Archive extraction (`maniluaManager._extract_and_add_lua_from_zip`) -/

/-- Python `os.path.basename` for archive entry names (`/` separator). -/
def basename (s : String) : String :=
  ⟨(s.data.reverse.takeWhile (fun c => c ≠ '/')).reverse⟩

/-- The extension component of Python `os.path.splitext`: the part from the
last dot of the base name, provided a non-dot character precedes it. -/
def splitextExt (s : String) : String :=
  let b := (basename s).data
  if (b.dropWhile (fun c => c = '.')).contains '.' then
    ⟨'.' :: (b.reverse.takeWhile (fun c => c ≠ '.')).reverse⟩
  else ""

/-- An entry name with the plugin's primary extension:
`f.lower().endswith('.lua')` (manilua.py:223). -/
def isLuaName (f : String) : Bool := strEndsWith (strToLower f) ".lua"

/-- The entries selected for installation (manilua.py:223-227): the
primary-extension entries, or every entry when none matches. -/
def luaSelect (file_list : List String) : List String :=
  let lua_files := file_list.filter isLuaName
  if lua_files.isEmpty then file_list else lua_files

/-- Destination path of an installed entry (manilua.py:238-243): primary
entries keep their base name; other entries are renamed to the item id with
the original extension (default `.txt`). -/
def destFileName (target_dir : String) (appid : Nat) (file_name : String) :
    String :=
  if isLuaName file_name then target_dir ++ "/" ++ basename file_name
  else
    let ext := splitextExt file_name
    target_dir ++ "/" ++ toString appid ++ (if ext = "" then ".txt" else ext)

/-- The files written by the extraction loop (manilua.py:231-261), with
entry reads and filesystem writes succeeding: directory entries (trailing
separator) are skipped, every other selected entry is written. -/
def extractInstalled (target_dir : String) (appid : Nat)
    (file_list : List String) : List String :=
  ((luaSelect file_list).filter (fun f => !(strEndsWith f "/"))).map
    (destFileName target_dir appid)

/-- Embedding of `_extract_and_add_lua_from_zip` (manilua.py:211-282) over
the archive's entry listing: the status writes it performs, and either the
installed-files list or the error it raises when nothing was written. -/
def _extract_and_add_lua_from_zip (target_dir : String) (appid : Nat)
    (file_list : List String) : List StateRec × Except String (List String) :=
  let installed_files := extractInstalled target_dir appid file_list
  ([mkRec [("status", Val.str "extracting")],
    mkRec [("status", Val.str "installing")]] ++
    (if installed_files.isEmpty then []
     else [mkRec [("installedFiles", Val.strList installed_files),
                  ("installedPath", Val.str (installed_files.headD ""))]]),
   if installed_files.isEmpty then
     Except.error "No files were successfully extracted from ZIP"
   else Except.ok installed_files)

/-! ### Availability prober (`maniluaManager._check_availability_and_download`) -/

/-- Aggregated outcome of the probe phase (manilua.py:411-427). -/
inductive ProbeOutcome where
  | failed (error : String)
  | single (endpoint : String)
  | choice (available : List String)
  deriving DecidableEq

/-- What one completed probe contributes (manilua.py:362-376): the endpoint
itself when its availability check succeeds and reports available,
otherwise nothing (errors are swallowed into "not available"). -/
def check_single_endpoint (avail : String → Bool) (endpoint : String) :
    Option String :=
  if avail endpoint then some endpoint else none

/-- The `available_on` list (manilua.py:389-393): probe results are
appended in the order the concurrent futures complete. -/
def available_on (completion_order : List String) (avail : String → Bool) :
    List String :=
  completion_order.filterMap (check_single_endpoint avail)

/-- The zero / one / many decision after aggregation (manilua.py:411-427):
no available endpoint fails the item, exactly one proceeds with it, and
more than one parks the item awaiting a choice, recording `available_on`. -/
def probeOutcome (appid : Nat) (completion_order : List String)
    (avail : String → Bool) : ProbeOutcome :=
  let av := available_on completion_order avail
  if av.isEmpty then
    ProbeOutcome.failed
      ("App " ++ toString appid ++ " is not available on any endpoint")
  else if av.length = 1 then ProbeOutcome.single (av.headD "")
  else ProbeOutcome.choice av

/-! ### Streaming downloader (`maniluaManager._download_from_manilua_backend`) -/

/-- Environment describing the outcome of every external interaction of one
download invocation.  `statusCode` is the HTTP status of the streamed
response; the worker never consults it (manilua.py:98-131 reads only the
`Content-Length` header and the body chunks). -/
structure DownloadEnv where
  clientOk : Bool
  openError : Option String
  statusCode : Nat
  contentLength : Nat
  chunks : List Nat
  midStreamError : Option String
  progressTick : Nat → Bool
  isZip : Bool
  zipEntries : List String

/-- One state-store write performed by the worker, paired with whether the
per-item scratch file exists at the moment of the write. -/
structure WriteEv where
  upd : StateRec
  fileExists : Bool

/-- The coalesced progress writes of the chunk loop (manilua.py:112-131):
empty chunks are skipped; the first non-empty chunk always fires a write
(`last_state_update_ts` still 0.0), later ones fire when the update
interval has elapsed (`tick i`). -/
def progressWritesGo (tick : Nat → Bool) (total : Nat) :
    List Nat → Nat → Nat → Bool → List StateRec
  | [], _, _, _ => []
  | c :: rest, i, acc, started =>
    if c = 0 then progressWritesGo tick total rest (i + 1) acc started
    else
      if started = false || tick i then
        mkRec [("status", Val.str "downloading"),
               ("bytesRead", Val.nat (acc + c)),
               ("totalBytes", Val.nat total)] ::
          progressWritesGo tick total rest (i + 1) (acc + c) true
      else progressWritesGo tick total rest (i + 1) (acc + c) started

/-- All progress writes of one chunk sequence. -/
def progressWrites (chunks : List Nat) (tick : Nat → Bool) (total : Nat) :
    List StateRec :=
  progressWritesGo tick total chunks 0 0 false

/-- The exception handler of the streaming block (manilua.py:192-202):
the scratch file is removed if it exists, then the failed state is
recorded; so at the moment of the write the file is gone. -/
def innerExceptWrites (e : String) : List WriteEv :=
  [⟨mkRec [("status", Val.str "failed"),
           ("error", Val.str ("Download failed: " ++ e))], false⟩]

/-- The terminal success write (manilua.py:186-190). -/
def doneRec (endpoint : String) : StateRec :=
  mkRec [("status", Val.str "done"), ("success", Val.bool true),
         ("api", Val.str ("manilua (" ++ endpoint ++ ")"))]

/-- Embedding of `_download_from_manilua_backend` (manilua.py:41-209) with
filesystem, archive reads and timestamping idealized as succeeding: the
sequence of state writes the worker performs, each paired with whether the
scratch file `temp_<appid>.zip` exists at that moment (`fs0` on entry). -/
def _download_from_manilua_backend (env : DownloadEnv) (target_dir : String)
    (appid : Nat) (endpoint : String) (fs0 : Bool) : List WriteEv :=
  let w1 : WriteEv :=
    ⟨mkRec [("status", Val.str "checking"),
            ("currentApi", Val.str ("manilua (" ++ endpoint ++ ")")),
            ("bytesRead", Val.nat 0), ("totalBytes", Val.nat 0),
            ("endpoint", Val.str endpoint)], fs0⟩
  if env.clientOk = false then
    [w1, ⟨mkRec [("status", Val.str "failed"),
                 ("error", Val.str "Setup failed: Failed to get HTTP client")],
          fs0⟩]
  else
    let w2 : WriteEv :=
      ⟨mkRec [("status", Val.str "downloading"),
              ("endpoint", Val.str endpoint),
              ("bytesRead", Val.nat 0), ("totalBytes", Val.nat 0)], fs0⟩
    match env.openError with
    | some e => [w1, w2] ++ innerExceptWrites e
    | none =>
      let total := env.contentLength
      let w3 : WriteEv :=
        ⟨mkRec [("status", Val.str "downloading"), ("bytesRead", Val.nat 0),
                ("totalBytes", Val.nat total)], fs0⟩
      let pws := (progressWrites env.chunks env.progressTick total).map
        (fun r => (⟨r, true⟩ : WriteEv))
      let bytes_read := env.chunks.sum
      match env.midStreamError with
      | some e => [w1, w2, w3] ++ pws ++ innerExceptWrites e
      | none =>
        if bytes_read = 0 then
          [w1, w2, w3] ++ pws ++ innerExceptWrites "Empty download from endpoint"
        else
          let w4 : WriteEv :=
            ⟨mkRec [("status", Val.str "downloading"),
                    ("bytesRead", Val.nat bytes_read),
                    ("totalBytes",
                      Val.nat (if 0 < total then total else bytes_read))], true⟩
          let w5 : WriteEv :=
            ⟨mkRec [("status", Val.str "processing"),
                    ("bytesRead", Val.nat bytes_read),
                    ("totalBytes",
                      Val.nat (if total = 0 then bytes_read else total))], true⟩
          if env.isZip then
            match (_extract_and_add_lua_from_zip target_dir appid
                env.zipEntries).2 with
            | Except.error e =>
                [w1, w2, w3] ++ pws ++ [w4, w5] ++
                  (_extract_and_add_lua_from_zip target_dir appid
                    env.zipEntries).1.map (fun r => (⟨r, true⟩ : WriteEv)) ++
                  innerExceptWrites e
            | Except.ok _ =>
                [w1, w2, w3] ++ pws ++ [w4, w5] ++
                  (_extract_and_add_lua_from_zip target_dir appid
                    env.zipEntries).1.map (fun r => (⟨r, true⟩ : WriteEv)) ++
                  [⟨doneRec endpoint, false⟩]
          else
            let dest := target_dir ++ "/" ++ toString appid ++ ".lua"
            [w1, w2, w3] ++ pws ++ [w4, w5,
              ⟨mkRec [("status", Val.str "installing"),
                      ("installedFiles", Val.strList [dest]),
                      ("installedPath", Val.str dest)], false⟩,
              ⟨doneRec endpoint, false⟩]

/-- Apply a worker's writes to the store. -/
def applyWrites (store : Store) (appid : Nat) (tr : List WriteEv) : Store :=
  tr.foldl (fun s ev => _set_download_state s appid ev.upd) store

/-- The per-item state after one download invocation against a fresh store,
with the scratch file absent on entry as guaranteed by the per-id naming
and prior cleanup. -/
def finalState (env : DownloadEnv) (target_dir : String) (appid : Nat)
    (endpoint : String) : StateRec :=
  applyWrites initStore appid
    (_download_from_manilua_backend env target_dir appid endpoint false) appid

/-- The environment of the C1 counterexample: the backend rejects the
credential with an HTTP 401 carrying an empty body; the stream opens
normally and yields zero bytes. -/
def c1env : DownloadEnv :=
  ⟨true, none, 401, 0, [], none, fun _ => false, false, []⟩

/-- The environment of the C1 witness: the stream raises an
authentication-failure exception mid-transfer. -/
def c1wenv : DownloadEnv :=
  ⟨true, none, 401, 0, [5], some "authentication failed", fun _ => false,
    false, []⟩

/-- The environment of the C7 witness: the stream breaks mid-transfer
after two chunks were written to the scratch file. -/
def c7env : DownloadEnv :=
  ⟨true, none, 200, 10, [4, 6], some "Connection broken", fun _ => true,
    false, []⟩

/-- The environment of the C8 witness: a clean stream that yields only
empty chunks, so zero bytes are read. -/
def c8env : DownloadEnv :=
  ⟨true, none, 200, 0, [0, 0], none, fun _ => false, false, []⟩

/-! ### Theorems -/

/-- C3: the state-store update merges partial fields, preserving every
previously recorded field the update does not mention, both for a single
update and for any lock-serialized sequence of updates (hence under any
interleaving of concurrent updaters). -/
theorem C3_set_download_state_merge_preserves (k : String) :
    (∀ (store : Store) (appid : Nat) (upd : StateRec), upd k = none →
      ∀ i, _set_download_state store appid upd i k = store i k) ∧
    (∀ (store : Store) (upds : List (Nat × StateRec)),
      (∀ u ∈ upds, u.2 k = none) →
      ∀ i, applyUpdates store upds i k = store i k) := by
  have single : ∀ (store : Store) (appid : Nat) (upd : StateRec), upd k = none →
      ∀ i, _set_download_state store appid upd i k = store i k := by
    intro store appid upd h i
    unfold _set_download_state dictUpdate
    by_cases hi : i = appid <;> simp [hi, h]
  refine ⟨single, ?_⟩
  intro store upds
  induction upds generalizing store with
  | nil => intro _ i; rfl
  | cons u rest ih =>
    intro h i
    have step := single store u.1 u.2 (h u (List.mem_cons_self u rest)) i
    have tail := ih (_set_download_state store u.1 u.2)
      (fun u' hu' => h u' (List.mem_cons_of_mem u hu')) i
    calc applyUpdates store (u :: rest) i k
        = applyUpdates (_set_download_state store u.1 u.2) rest i k := rfl
      _ = _set_download_state store u.1 u.2 i k := tail
      _ = store i k := step

theorem C3_witness :
    (mkRec [("status", Val.str "downloading")]) "endpoint" = none ∧
    _set_download_state initStore 7 (mkRec [("status", Val.str "downloading")])
      7 "endpoint" = initStore 7 "endpoint" :=
  ⟨rfl, (C3_set_download_state_merge_preserves "endpoint").1 initStore 7
    (mkRec [("status", Val.str "downloading")]) rfl 7⟩

/-- C4: selecting an endpoint that is not in the recorded available list of
an item awaiting an endpoint choice is rejected (`success = false`), leaves
the store unchanged, and spawns no download. -/
theorem C4_select_unlisted_endpoint_rejected
    (store : Store) (appid : Nat) (sel : String) (l : List String)
    (hst : store appid "status" = some (Val.str "awaiting_endpoint_choice"))
    (hav : store appid "available_endpoints" = some (Val.strList l))
    (hmem : sel ∉ l) :
    select_endpoint_and_download store appid sel =
      (⟨false, some ("Endpoint " ++ sel ++ " not available")⟩, store, none) := by
  unfold select_endpoint_and_download
  simp [hst, hav, hmem]

theorem C4_witness :
    c4store 1 "status" = some (Val.str "awaiting_endpoint_choice") ∧
    c4store 1 "available_endpoints" = some (Val.strList ["a", "b"]) ∧
    "c" ∉ (["a", "b"] : List String) ∧
    select_endpoint_and_download c4store 1 "c" =
      (⟨false, some ("Endpoint " ++ "c" ++ " not available")⟩, c4store, none) :=
  ⟨rfl, rfl, by decide,
    C4_select_unlisted_endpoint_rejected c4store 1 "c" ["a", "b"] rfl rfl
      (by decide)⟩

/-- When every attempt from `attempt` on fails, the loop surfaces the final
attempt's own error dictionary. -/
theorem retryFrom_all_failed (outcomes : Nat → AttemptOutcome)
    (max_retries : Nat) :
    ∀ attempt, attempt < max_retries →
    (∀ i, attempt ≤ i → i < max_retries → attemptFailed (outcomes i) = true) →
    retryFrom outcomes max_retries attempt =
      finalAttemptResult (outcomes (max_retries - 1)) := by
  have key : ∀ n attempt, max_retries - attempt ≤ n → attempt < max_retries →
      (∀ i, attempt ≤ i → i < max_retries → attemptFailed (outcomes i) = true) →
      retryFrom outcomes max_retries attempt =
        finalAttemptResult (outcomes (max_retries - 1)) := by
    intro n
    induction n with
    | zero => intro attempt hle hlt _; omega
    | succ n ih =>
      intro attempt hle hlt hall
      have hfail := hall attempt (Nat.le_refl attempt) hlt
      unfold retryFrom
      rw [dif_pos hlt]
      cases hout : outcomes attempt with
      | ok data code =>
          rw [hout] at hfail
          simp [attemptFailed] at hfail
      | httpError code text =>
          by_cases hlast : attempt = max_retries - 1
          · subst hlast
            simp [hout, finalAttemptResult]
          · have hrec := ih (attempt + 1) (by omega) (by omega)
              (fun i hi hi' => hall i (by omega) hi')
            simp [hlast, hrec]
      | connError msg =>
          by_cases hlast : attempt = max_retries - 1
          · subst hlast
            simp [hout, finalAttemptResult]
          · have hrec := ih (attempt + 1) (by omega) (by omega)
              (fun i hi hi' => hall i (by omega) hi')
            simp [hlast, hrec]
  intro attempt hlt hall
  exact key (max_retries - attempt) attempt (Nat.le_refl _) hlt hall

/-- A successful attempt makes the retry loop return immediately. -/
theorem retryFrom_ok (outcomes : Nat → AttemptOutcome)
    (max_retries attempt : Nat) (d : String) (c : Nat)
    (hlt : attempt < max_retries)
    (h : outcomes attempt = AttemptOutcome.ok d c) :
    retryFrom outcomes max_retries attempt = ⟨true, some d, none, some c⟩ := by
  unfold retryFrom
  rw [dif_pos hlt, h]

/-- A connection error on a non-final attempt makes the loop retry. -/
theorem retryFrom_connError_retry (outcomes : Nat → AttemptOutcome)
    (max_retries attempt : Nat) (msg : String)
    (hlt : attempt < max_retries) (hne : attempt ≠ max_retries - 1)
    (h : outcomes attempt = AttemptOutcome.connError msg) :
    retryFrom outcomes max_retries attempt =
      retryFrom outcomes max_retries (attempt + 1) := by
  conv_lhs => unfold retryFrom
  rw [dif_pos hlt, h]
  simp [hne]

/-- C5: the retrying transport returns success with no visible error when
the first two attempts fail with connection errors and the third succeeds
(with a retry ceiling of at least three); and when every attempt fails,
the caller receives exactly the final attempt's error. -/
theorem C5_retry_request_resilience :
    (∀ (outcomes : Nat → AttemptOutcome) (max_retries : Nat)
      (m0 m1 d : String) (c : Nat), 3 ≤ max_retries →
      outcomes 0 = AttemptOutcome.connError m0 →
      outcomes 1 = AttemptOutcome.connError m1 →
      outcomes 2 = AttemptOutcome.ok d c →
      _retry_request outcomes max_retries =
        ⟨true, some d, none, some c⟩) ∧
    (∀ (outcomes : Nat → AttemptOutcome) (max_retries : Nat),
      0 < max_retries →
      (∀ i, i < max_retries → attemptFailed (outcomes i) = true) →
      _retry_request outcomes max_retries =
        finalAttemptResult (outcomes (max_retries - 1))) := by
  constructor
  · intro outcomes max_retries m0 m1 d c h3 h0 h1 h2
    have t0 := retryFrom_connError_retry outcomes max_retries 0 m0
      (by omega) (by omega) h0
    have t1 := retryFrom_connError_retry outcomes max_retries 1 m1
      (by omega) (by omega) h1
    have t2 := retryFrom_ok outcomes max_retries 2 d c (by omega) h2
    unfold _retry_request
    rw [t0]
    show retryFrom outcomes max_retries 1 = _
    rw [t1]
    show retryFrom outcomes max_retries 2 = _
    rw [t2]
  · intro outcomes max_retries hpos hall
    exact retryFrom_all_failed outcomes max_retries 0 hpos
      (fun i _ hi => hall i hi)

theorem C5_witness :
    (3 ≤ 3 ∧
      _retry_request c5outcomes 3 = ⟨true, some "payload", none, some 200⟩) ∧
    (0 < 2 ∧
      _retry_request c5failing 2 = finalAttemptResult (c5failing 1)) :=
  ⟨⟨by decide, C5_retry_request_resilience.1 c5outcomes 3
      "Connection reset" "Connection timed out" "payload" 200
      (by decide) rfl rfl rfl⟩,
    ⟨by decide, C5_retry_request_resilience.2 c5failing 2 (by decide)
      (by intro i hi
          interval_cases i <;> rfl)⟩⟩

/-- C9: setting a new API key clears the user-id cache, so the next
`get_user_id` (without forced refresh) always performs a fresh validation
of the new key rather than returning a result cached under a previous key;
and the cache is only ever written with successful validation results. -/
theorem C9_set_api_key_invalidates_cache :
    (∀ (s : APIState) (k : String), (set_api_key s k).user_id_cache = none) ∧
    (∀ (validate : String → UserIdResult) (cache_ttl : Int) (s : APIState)
      (k : String) (now : Int),
      (get_user_id validate cache_ttl (set_api_key s k) now false).1 =
        validate k) ∧
    (∀ (validate : String → UserIdResult) (cache_ttl : Int) (s : APIState)
      (now : Int) (force_refresh : Bool),
      (get_user_id validate cache_ttl s now force_refresh).2.user_id_cache =
          s.user_id_cache ∨
      ∃ r, (get_user_id validate cache_ttl s now force_refresh).2.user_id_cache
          = some r ∧ r.success = true) := by
  refine ⟨fun s k => rfl, ?_, ?_⟩
  · intro validate cache_ttl s k now
    unfold get_user_id set_api_key _fetch_user_id
    simp only [Option.isSome_none, Bool.false_eq_true, false_and, and_false,
      if_false]
    by_cases h : (validate k).success <;> simp [h]
  · intro validate cache_ttl s now force_refresh
    unfold get_user_id
    by_cases hc : force_refresh = false ∧ s.user_id_cache.isSome ∧
        now - s.user_id_cache_time < cache_ttl
    · left; simp [hc]
    · by_cases h : (_fetch_user_id validate s.api_key).success
      · right
        exact ⟨_fetch_user_id validate s.api_key, by simp [hc, h], h⟩
      · left; simp [hc, h]

/-- Removing an element if present equals unconditional filtering. -/
theorem filter_of_ite_mem (l : List String) (a : String) :
    (if a ∈ l then l.filter (fun f => !(f == a)) else l) =
      l.filter (fun f => !(f == a)) := by
  by_cases h : a ∈ l
  · rw [if_pos h]
  · rw [if_neg h]
    symm
    apply List.filter_eq_self.mpr
    intro x hx
    rw [Bool.not_eq_true', beq_eq_false_iff_ne]
    exact fun e => h (e ▸ hx)

/-- The primary file name is not a manifest name (it does not end in
`.manifest`). -/
theorem manifestMatch_lua_name (appid : Nat) :
    manifestMatch appid (toString appid ++ ".lua") = false := by
  have hsuf : ¬ (".manifest".data <:+ (toString appid ++ ".lua").data) := by
    intro hm
    have hl : ".lua".data <:+ (toString appid ++ ".lua").data := by
      rw [String.data_append]
      exact List.suffix_append _ _
    rcases List.suffix_or_suffix_of_suffix hm hl with h | h
    · exact absurd h (by decide)
    · exact absurd h (by decide)
  unfold manifestMatch strEndsWith
  rw [Bool.and_eq_false_iff]
  exact Or.inr (decide_eq_false hsuf)

/-- The disabled-variant name is not a manifest name. -/
theorem manifestMatch_disabled_name (appid : Nat) :
    manifestMatch appid (toString appid ++ ".lua.disabled") = false := by
  have hsuf : ¬ (".manifest".data <:+ (toString appid ++ ".lua.disabled").data) := by
    intro hm
    have hl : ".lua.disabled".data <:+ (toString appid ++ ".lua.disabled").data := by
      rw [String.data_append]
      exact List.suffix_append _ _
    rcases List.suffix_or_suffix_of_suffix hm hl with h | h
    · exact absurd h (by decide)
    · exact absurd h (by decide)
  unfold manifestMatch strEndsWith
  rw [Bool.and_eq_false_iff]
  exact Or.inr (decide_eq_false hsuf)

/-- The primary name and its disabled variant differ. -/
theorem lua_name_ne_disabled (appid : Nat) :
    (toString appid ++ ".lua") ≠ (toString appid ++ ".lua.disabled") := by
  intro h
  have hlen := congrArg String.length h
  rw [String.length_append, String.length_append] at hlen
  have e1 : ".lua".length = 4 := rfl
  have e2 : ".lua.disabled".length = 13 := rfl
  rw [e1, e2] at hlen
  omega

/-- The removed-files list of the result dictionary is the list of removals
performed, whether or not it ended up empty. -/
theorem removed_files_of_result (l : List String) (e m : Option String) :
    ((if l.isEmpty then (⟨false, none, e, []⟩ : RemoveResult)
      else ⟨true, m, none, l⟩) : RemoveResult).removed_files = l := by
  cases l <;> simp [List.isEmpty]

/-- C10: the removal operation deletes exactly the files derived from the
given id (`<id>.lua`, `<id>.lua.disabled`, `<id>_*.manifest`), leaves every
other file in the directory unchanged, and its removed-files list holds
exactly the names it deleted. -/
theorem C10_remove_only_id_derived (stplug_files : List String) (appid : Nat) :
    ((remove_via_lua stplug_files appid).2 =
      stplug_files.filter (fun f => !(idDerived appid f))) ∧
    (∀ f, f ∈ (remove_via_lua stplug_files appid).1.removed_files ↔
      (f ∈ stplug_files ∧ idDerived appid f = true)) := by
  have hml := manifestMatch_lua_name appid
  have hmd := manifestMatch_disabled_name appid
  have hne := lua_name_ne_disabled appid
  unfold remove_via_lua
  dsimp only
  rw [filter_of_ite_mem]
  have hdisIff : ((toString appid ++ ".lua.disabled") ∈
      stplug_files.filter (fun f => !(f == toString appid ++ ".lua"))) ↔
      (toString appid ++ ".lua.disabled") ∈ stplug_files := by
    rw [List.mem_filter]
    simp only [Bool.not_eq_true', beq_eq_false_iff_ne, ne_eq]
    exact ⟨fun h => h.1, fun h => ⟨h, fun e => hne e.symm⟩⟩
  rw [filter_of_ite_mem]
  simp only [hdisIff]
  constructor
  · show List.filter _ (List.filter _ (List.filter _ stplug_files)) = _
    rw [List.filter_filter, List.filter_filter]
    apply List.filter_congr
    intro f _
    cases hfl : f == toString appid ++ ".lua" <;>
      cases hfd : f == toString appid ++ ".lua.disabled" <;>
        cases hfm : manifestMatch appid f <;>
          simp [idDerived, hfl, hfd, hfm]
  · intro f
    rw [removed_files_of_result, List.mem_append]
    have hr2 : (f ∈ (if (toString appid ++ ".lua.disabled") ∈ stplug_files then
        (if (toString appid ++ ".lua") ∈ stplug_files then
          [toString appid ++ ".lua"] else []) ++
          [toString appid ++ ".lua.disabled"]
        else (if (toString appid ++ ".lua") ∈ stplug_files then
          [toString appid ++ ".lua"] else []))) ↔
        ((f = toString appid ++ ".lua" ∧
            (toString appid ++ ".lua") ∈ stplug_files) ∨
          (f = toString appid ++ ".lua.disabled" ∧
            (toString appid ++ ".lua.disabled") ∈ stplug_files)) := by
      by_cases hl : (toString appid ++ ".lua") ∈ stplug_files <;>
        by_cases hd2 : (toString appid ++ ".lua.disabled") ∈ stplug_files <;>
          simp [hl, hd2]
    have hmem2 : (f ∈ List.filter (manifestMatch appid)
        (List.filter (fun f => !(f == toString appid ++ ".lua.disabled"))
          (List.filter (fun f => !(f == toString appid ++ ".lua"))
            stplug_files))) ↔
        (f ∈ stplug_files ∧ manifestMatch appid f = true ∧
          f ≠ toString appid ++ ".lua.disabled" ∧
          f ≠ toString appid ++ ".lua") := by
      simp only [List.mem_filter, Bool.not_eq_true', beq_eq_false_iff_ne]
      tauto
    rw [hr2, hmem2]
    simp only [idDerived, Bool.or_eq_true, beq_iff_eq]
    constructor
    · rintro ((⟨rfl, hin⟩ | ⟨rfl, hin⟩) | ⟨hin, hm, _, _⟩)
      · exact ⟨hin, Or.inl (Or.inl rfl)⟩
      · exact ⟨hin, Or.inl (Or.inr rfl)⟩
      · exact ⟨hin, Or.inr hm⟩
    · rintro ⟨hin, (rfl | rfl) | hm⟩
      · exact Or.inl (Or.inl ⟨rfl, hin⟩)
      · exact Or.inl (Or.inr ⟨rfl, hin⟩)
      · refine Or.inr ⟨hin, hm, ?_, ?_⟩
        · intro e
          rw [e, hmd] at hm
          cases hm
        · intro e
          rw [e, hml] at hm
          cases hm

/-- A primary-extension entry name never has a trailing separator. -/
theorem isLuaName_not_dir (f : String) (h : isLuaName f = true) :
    strEndsWith f "/" = false := by
  unfold isLuaName strToLower at h
  unfold strEndsWith at h ⊢
  rw [decide_eq_true_iff] at h
  apply decide_eq_false
  intro hslash
  have hmap : ([ '/' ] : List Char) <:+ f.data.map Char.toLower := by
    have := hslash.map Char.toLower
    simpa using this
  rcases List.suffix_or_suffix_of_suffix hmap h with h' | h'
  · exact absurd h' (by decide)
  · exact absurd h' (by decide)

/-- C6: when the archive contains primary-extension entries, exactly those
entries are installed (so `installedFiles` has exactly that many elements);
when it contains none, every non-directory entry is installed instead. -/
theorem C6_extract_primary_extension_selection (target_dir : String)
    (appid : Nat) (file_list : List String) :
    (file_list.any isLuaName = true →
      extractInstalled target_dir appid file_list =
        (file_list.filter isLuaName).map (destFileName target_dir appid) ∧
      (extractInstalled target_dir appid file_list).length =
        (file_list.filter isLuaName).length ∧
      (_extract_and_add_lua_from_zip target_dir appid file_list).2 =
        Except.ok ((file_list.filter isLuaName).map
          (destFileName target_dir appid))) ∧
    (file_list.any isLuaName = false →
      extractInstalled target_dir appid file_list =
        (file_list.filter (fun f => !(strEndsWith f "/"))).map
          (destFileName target_dir appid)) := by
  constructor
  · intro hany
    have hnonempty : file_list.filter isLuaName ≠ [] := by
      intro hnil
      rw [List.any_eq_true] at hany
      obtain ⟨x, hx, hpx⟩ := hany
      have : x ∈ file_list.filter isLuaName := List.mem_filter.mpr ⟨hx, hpx⟩
      rw [hnil] at this
      cases this
    have hsel : luaSelect file_list = file_list.filter isLuaName := by
      unfold luaSelect
      rw [if_neg]
      simp [List.isEmpty_iff, hnonempty]
    have hnodir : (file_list.filter isLuaName).filter
        (fun f => !(strEndsWith f "/")) = file_list.filter isLuaName := by
      apply List.filter_eq_self.mpr
      intro x hx
      rw [isLuaName_not_dir x (List.mem_filter.mp hx).2]
      rfl
    have hinst : extractInstalled target_dir appid file_list =
        (file_list.filter isLuaName).map (destFileName target_dir appid) := by
      unfold extractInstalled
      rw [hsel, hnodir]
    refine ⟨hinst, by rw [hinst, List.length_map], ?_⟩
    unfold _extract_and_add_lua_from_zip
    rw [hinst]
    have : ((file_list.filter isLuaName).map
        (destFileName target_dir appid)).isEmpty = false := by
      rw [List.isEmpty_eq_false_iff_exists_mem]
      obtain ⟨y, hy⟩ := List.exists_mem_of_ne_nil _ hnonempty
      exact ⟨destFileName target_dir appid y, List.mem_map_of_mem _ hy⟩
    simp only [hinst, this, Bool.false_eq_true, if_false]
  · intro hany
    have hnil : file_list.filter isLuaName = [] := by
      rw [List.filter_eq_nil_iff]
      intro a ha
      rw [List.any_eq_false] at hany
      exact fun hla => absurd hla (by simp [hany a ha])
    unfold extractInstalled luaSelect
    rw [hnil]
    rfl

theorem C6_witness :
    ((["a.lua", "b.lua", "readme.txt"] : List String).any isLuaName = true) ∧
    (extractInstalled "target" 42 ["a.lua", "b.lua", "readme.txt"] =
      ((["a.lua", "b.lua", "readme.txt"] : List String).filter isLuaName).map
        (destFileName "target" 42) ∧
    (extractInstalled "target" 42 ["a.lua", "b.lua", "readme.txt"]).length =
      ((["a.lua", "b.lua", "readme.txt"] : List String).filter
        isLuaName).length ∧
    (_extract_and_add_lua_from_zip "target" 42
        ["a.lua", "b.lua", "readme.txt"]).2 =
      Except.ok (((["a.lua", "b.lua", "readme.txt"] : List String).filter
        isLuaName).map (destFileName "target" 42))) :=
  ⟨by decide,
    (C6_extract_primary_extension_selection "target" 42
      ["a.lua", "b.lua", "readme.txt"]).1 (by decide)⟩

/-- Collecting the available endpoints in completion order is filtering the
completion order by availability. -/
theorem available_on_eq_filter (completion_order : List String)
    (avail : String → Bool) :
    available_on completion_order avail = completion_order.filter avail := by
  unfold available_on
  induction completion_order with
  | nil => rfl
  | cons x xs ih =>
      by_cases h : avail x <;>
        simp [List.filterMap_cons, check_single_endpoint, h, ih,
          List.filter_cons]

/-- C2 counterexample: probing candidates `["a", "b"]`, both available,
with the probe of `"b"` completing first (a legitimate completion order),
records `["b", "a"]`, not the candidate order `["a", "b"]`. -/
theorem C2_counterexample :
    (["b", "a"] : List String).Perm ["a", "b"] ∧
    probeOutcome 42 ["b", "a"] (fun _ => true) =
      ProbeOutcome.choice ["b", "a"] ∧
    ProbeOutcome.choice ["b", "a"] ≠ ProbeOutcome.choice ["a", "b"] := by
  refine ⟨by decide, rfl, by decide⟩

/-- C2 (amended): the recorded available-endpoints list is the available
candidates in probe-completion order — a permutation of the candidate-order
list (never a drop or duplication), but not necessarily the original
candidate order itself. -/
theorem C2_available_endpoints_completion_order (appid : Nat)
    (candidates completion_order : List String) (avail : String → Bool)
    (hperm : completion_order.Perm candidates) :
    (available_on completion_order avail).Perm (candidates.filter avail) ∧
    (2 ≤ (available_on completion_order avail).length →
      probeOutcome appid completion_order avail =
        ProbeOutcome.choice (available_on completion_order avail)) := by
  constructor
  · rw [available_on_eq_filter]
    exact hperm.filter avail
  · intro hlen
    unfold probeOutcome
    rw [if_neg, if_neg]
    · omega
    · intro hempty
      rw [List.isEmpty_iff] at hempty
      rw [hempty] at hlen
      simp at hlen

theorem C2_witness :
    ((["b", "a"] : List String).Perm ["a", "b"]) ∧
    ((available_on ["b", "a"] (fun _ => true)).Perm
      ((["a", "b"] : List String).filter (fun _ => true)) ∧
    (2 ≤ (available_on ["b", "a"] (fun _ => true)).length →
      probeOutcome 42 ["b", "a"] (fun _ => true) =
        ProbeOutcome.choice (available_on ["b", "a"] (fun _ => true)))) :=
  ⟨by decide,
    C2_available_endpoints_completion_order 42 ["a", "b"] ["b", "a"]
      (fun _ => true) (by decide)⟩

/-- Every progress write reports `downloading` and touches no other
status-like field. -/
theorem progressWrites_fields (tick : Nat → Bool) (total : Nat) :
    ∀ (chunks : List Nat) (i acc : Nat) (started : Bool),
      ∀ r ∈ progressWritesGo tick total chunks i acc started,
        r "status" = some (Val.str "downloading") ∧
        r "requiresNewKey" = none := by
  intro chunks
  induction chunks with
  | nil => intro i acc started r hr; cases hr
  | cons c rest ih =>
      intro i acc started r hr
      unfold progressWritesGo at hr
      by_cases hc : c = 0
      · rw [if_pos hc] at hr
        exact ih _ _ _ r hr
      · rw [if_neg hc] at hr
        by_cases hs : (started = false || tick i) = true
        · rw [if_pos hs] at hr
          rcases List.mem_cons.mp hr with rfl | hr
          · exact ⟨rfl, rfl⟩
          · exact ih _ _ _ r hr
        · rw [if_neg hs] at hr
          exact ih _ _ _ r hr

/-- Every write of the extraction handler reports `extracting`,
`installing`, or no status at all, and never a credential flag. -/
theorem extract_writes_fields (target_dir : String) (appid : Nat)
    (file_list : List String) :
    ∀ r ∈ (_extract_and_add_lua_from_zip target_dir appid file_list).1,
      (r "status" = some (Val.str "extracting") ∨
       r "status" = some (Val.str "installing") ∨ r "status" = none) ∧
      r "requiresNewKey" = none := by
  intro r hr
  unfold _extract_and_add_lua_from_zip at hr
  dsimp only at hr
  by_cases hemp : (extractInstalled target_dir appid file_list).isEmpty = true
  · rw [if_pos hemp] at hr
    simp only [List.append_nil, List.mem_cons, List.mem_nil_iff,
      or_false] at hr
    rcases hr with rfl | rfl
    · exact ⟨Or.inl rfl, rfl⟩
    · exact ⟨Or.inr (Or.inl rfl), rfl⟩
  · rw [if_neg hemp] at hr
    simp only [List.mem_append, List.mem_cons, List.mem_nil_iff,
      or_false] at hr
    rcases hr with (rfl | rfl) | rfl
    · exact ⟨Or.inl rfl, rfl⟩
    · exact ⟨Or.inr (Or.inl rfl), rfl⟩
    · exact ⟨Or.inr (Or.inr rfl), rfl⟩

/-- Classification of every write a download invocation can perform: the
status recorded is one of the pipeline statuses, `done`, or `failed` — and
a `failed` write only happens with the scratch file gone (or in its entry
state `fs0`, for the pre-transfer setup failure); no write ever mentions
`requiresNewKey`. -/
theorem download_writes_classified (env : DownloadEnv) (target_dir : String)
    (appid : Nat) (endpoint : String) (fs0 : Bool) :
    ∀ ev ∈ _download_from_manilua_backend env target_dir appid endpoint fs0,
      (ev.upd "status" = some (Val.str "checking") ∨
       ev.upd "status" = some (Val.str "downloading") ∨
       ev.upd "status" = some (Val.str "processing") ∨
       ev.upd "status" = some (Val.str "extracting") ∨
       ev.upd "status" = some (Val.str "installing") ∨
       ev.upd "status" = none ∨
       ev.upd "status" = some (Val.str "done") ∨
       (ev.upd "status" = some (Val.str "failed") ∧
         (ev.fileExists = false ∨ ev.fileExists = fs0))) ∧
      ev.upd "requiresNewKey" = none := by
  intro ev hev
  obtain ⟨ck, oe, sc, cl, chs, mse, pt, iz, ze⟩ := env
  unfold _download_from_manilua_backend at hev
  dsimp only at hev
  by_cases hck : ck = false
  · rw [if_pos hck] at hev
    simp only [List.mem_cons, List.mem_nil_iff, or_false] at hev
    rcases hev with rfl | rfl
    · exact ⟨Or.inl rfl, rfl⟩
    · exact ⟨Or.inr (Or.inr (Or.inr (Or.inr (Or.inr (Or.inr (Or.inr
        ⟨rfl, Or.inr rfl⟩)))))), rfl⟩
  · rw [if_neg hck] at hev
    cases oe with
    | some e =>
        dsimp only at hev
        simp only [innerExceptWrites, List.mem_append, List.mem_cons,
          List.mem_nil_iff, or_false] at hev
        rcases hev with (rfl | rfl) | rfl
        · exact ⟨Or.inl rfl, rfl⟩
        · exact ⟨Or.inr (Or.inl rfl), rfl⟩
        · exact ⟨Or.inr (Or.inr (Or.inr (Or.inr (Or.inr (Or.inr (Or.inr
            ⟨rfl, Or.inl rfl⟩)))))), rfl⟩
    | none =>
        dsimp only at hev
        cases mse with
        | some e =>
            dsimp only at hev
            simp only [innerExceptWrites, List.mem_append, List.mem_cons,
              List.mem_nil_iff, or_false] at hev
            rcases hev with ((rfl | rfl | rfl) | hev) | rfl
            · exact ⟨Or.inl rfl, rfl⟩
            · exact ⟨Or.inr (Or.inl rfl), rfl⟩
            · exact ⟨Or.inr (Or.inl rfl), rfl⟩
            · obtain ⟨r', hr', rfl⟩ := List.mem_map.mp hev
              have hf := progressWrites_fields pt cl chs 0 0 false r' hr'
              exact ⟨Or.inr (Or.inl hf.1), hf.2⟩
            · exact ⟨Or.inr (Or.inr (Or.inr (Or.inr (Or.inr (Or.inr (Or.inr
                ⟨rfl, Or.inl rfl⟩)))))), rfl⟩
        | none =>
            by_cases hsum : chs.sum = 0
            · rw [if_pos hsum] at hev
              simp only [innerExceptWrites, List.mem_append, List.mem_cons,
                List.mem_nil_iff, or_false] at hev
              rcases hev with ((rfl | rfl | rfl) | hev) | rfl
              · exact ⟨Or.inl rfl, rfl⟩
              · exact ⟨Or.inr (Or.inl rfl), rfl⟩
              · exact ⟨Or.inr (Or.inl rfl), rfl⟩
              · obtain ⟨r', hr', rfl⟩ := List.mem_map.mp hev
                have hf := progressWrites_fields pt cl chs 0 0 false r' hr'
                exact ⟨Or.inr (Or.inl hf.1), hf.2⟩
              · exact ⟨Or.inr (Or.inr (Or.inr (Or.inr (Or.inr (Or.inr (Or.inr
                  ⟨rfl, Or.inl rfl⟩)))))), rfl⟩
            · rw [if_neg hsum] at hev
              by_cases hzip : iz = true
              · rw [if_pos hzip] at hev
                cases hres : (_extract_and_add_lua_from_zip target_dir appid
                    ze).2 with
                | error e =>
                    rw [hres] at hev
                    dsimp only at hev
                    simp only [innerExceptWrites, List.mem_append,
                      List.mem_cons, List.mem_nil_iff, or_false] at hev
                    rcases hev with ((((rfl | rfl | rfl) | hev) |
                        (rfl | rfl)) | hev) | rfl
                    · exact ⟨Or.inl rfl, rfl⟩
                    · exact ⟨Or.inr (Or.inl rfl), rfl⟩
                    · exact ⟨Or.inr (Or.inl rfl), rfl⟩
                    · obtain ⟨r', hr', rfl⟩ := List.mem_map.mp hev
                      have hf := progressWrites_fields pt cl chs 0 0 false
                        r' hr'
                      exact ⟨Or.inr (Or.inl hf.1), hf.2⟩
                    · exact ⟨Or.inr (Or.inl rfl), rfl⟩
                    · exact ⟨Or.inr (Or.inr (Or.inl rfl)), rfl⟩
                    · obtain ⟨r', hr', rfl⟩ := List.mem_map.mp hev
                      have hf := extract_writes_fields target_dir appid ze
                        r' hr'
                      rcases hf.1 with h | h | h
                      · exact ⟨Or.inr (Or.inr (Or.inr (Or.inl h))), hf.2⟩
                      · exact ⟨Or.inr (Or.inr (Or.inr (Or.inr (Or.inl h)))),
                          hf.2⟩
                      · exact ⟨Or.inr (Or.inr (Or.inr (Or.inr (Or.inr
                          (Or.inl h))))), hf.2⟩
                    · exact ⟨Or.inr (Or.inr (Or.inr (Or.inr (Or.inr (Or.inr
                        (Or.inr ⟨rfl, Or.inl rfl⟩)))))), rfl⟩
                | ok installed =>
                    rw [hres] at hev
                    dsimp only at hev
                    simp only [List.mem_append, List.mem_cons,
                      List.mem_nil_iff, or_false] at hev
                    rcases hev with ((((rfl | rfl | rfl) | hev) |
                        (rfl | rfl)) | hev) | rfl
                    · exact ⟨Or.inl rfl, rfl⟩
                    · exact ⟨Or.inr (Or.inl rfl), rfl⟩
                    · exact ⟨Or.inr (Or.inl rfl), rfl⟩
                    · obtain ⟨r', hr', rfl⟩ := List.mem_map.mp hev
                      have hf := progressWrites_fields pt cl chs 0 0 false
                        r' hr'
                      exact ⟨Or.inr (Or.inl hf.1), hf.2⟩
                    · exact ⟨Or.inr (Or.inl rfl), rfl⟩
                    · exact ⟨Or.inr (Or.inr (Or.inl rfl)), rfl⟩
                    · obtain ⟨r', hr', rfl⟩ := List.mem_map.mp hev
                      have hf := extract_writes_fields target_dir appid ze
                        r' hr'
                      rcases hf.1 with h | h | h
                      · exact ⟨Or.inr (Or.inr (Or.inr (Or.inl h))), hf.2⟩
                      · exact ⟨Or.inr (Or.inr (Or.inr (Or.inr (Or.inl h)))),
                          hf.2⟩
                      · exact ⟨Or.inr (Or.inr (Or.inr (Or.inr (Or.inr
                          (Or.inl h))))), hf.2⟩
                    · exact ⟨Or.inr (Or.inr (Or.inr (Or.inr (Or.inr (Or.inr
                        (Or.inl rfl)))))), rfl⟩
              · rw [if_neg hzip] at hev
                dsimp only at hev
                simp only [List.mem_append, List.mem_cons, List.mem_nil_iff,
                  or_false] at hev
                rcases hev with ((rfl | rfl | rfl) | hev) |
                    rfl | rfl | rfl | rfl
                · exact ⟨Or.inl rfl, rfl⟩
                · exact ⟨Or.inr (Or.inl rfl), rfl⟩
                · exact ⟨Or.inr (Or.inl rfl), rfl⟩
                · obtain ⟨r', hr', rfl⟩ := List.mem_map.mp hev
                  have hf := progressWrites_fields pt cl chs 0 0 false r' hr'
                  exact ⟨Or.inr (Or.inl hf.1), hf.2⟩
                · exact ⟨Or.inr (Or.inl rfl), rfl⟩
                · exact ⟨Or.inr (Or.inr (Or.inl rfl)), rfl⟩
                · exact ⟨Or.inr (Or.inr (Or.inr (Or.inr (Or.inl rfl)))), rfl⟩
                · exact ⟨Or.inr (Or.inr (Or.inr (Or.inr (Or.inr (Or.inr
                    (Or.inl rfl)))))), rfl⟩

/-- Folding writes distributes over append. -/
theorem applyWrites_append (store : Store) (appid : Nat)
    (l₁ l₂ : List WriteEv) :
    applyWrites store appid (l₁ ++ l₂) =
      applyWrites (applyWrites store appid l₁) appid l₂ := by
  unfold applyWrites
  rw [List.foldl_append]

/-- A trace ending in the streaming failure handler leaves the failed
status and its error message in the item's state. -/
theorem applyWrites_inner_failed (store : Store) (appid : Nat)
    (l : List WriteEv) (e : String) :
    (applyWrites store appid (l ++ innerExceptWrites e) appid) "status" =
      some (Val.str "failed") ∧
    (applyWrites store appid (l ++ innerExceptWrites e) appid) "error" =
      some (Val.str ("Download failed: " ++ e)) := by
  rw [applyWrites_append]
  unfold applyWrites innerExceptWrites
  simp only [List.foldl_cons, List.foldl_nil]
  refine ⟨?_, ?_⟩ <;>
    · simp only [_set_download_state]
      rw [if_pos trivial]
      rfl

/-- C1 counterexample: a download attempt whose streamed response has
status 401 ends in the generic `failed` state, not in `auth_failed` with
`requiresNewKey = true` — the worker never inspects the status code and
never writes such a state. -/
theorem C1_counterexample :
    c1env.statusCode = 401 ∧
    finalState c1env "target" 42 "manilua" "status" =
      some (Val.str "failed") ∧
    ¬(finalState c1env "target" 42 "manilua" "status" =
        some (Val.str "auth_failed") ∧
      finalState c1env "target" 42 "manilua" "requiresNewKey" =
        some (Val.bool true)) := by
  refine ⟨rfl, rfl, ?_⟩
  intro h
  exact absurd h.1 (by decide)

/-- C1 (amended): a failing download attempt — including one whose failure
is an authentication rejection surfaced by the stream (HTTP 401 body,
authentication-failure exception) — terminates in the generic `failed`
state with an error message; no state write of the worker ever records
`auth_failed` or sets `requiresNewKey`. -/
theorem C1_download_failure_generic_failed (env : DownloadEnv)
    (target_dir : String) (appid : Nat) (endpoint : String) (fs0 : Bool) :
    ((_download_from_manilua_backend env target_dir appid endpoint
        fs0).Forall (fun ev =>
      ev.upd "status" ≠ some (Val.str "auth_failed") ∧
      ev.upd "requiresNewKey" = none)) ∧
    (∀ e, env.clientOk = true → env.openError = none →
      env.midStreamError = some e →
      finalState env target_dir appid endpoint "status" =
        some (Val.str "failed") ∧
      finalState env target_dir appid endpoint "error" =
        some (Val.str ("Download failed: " ++ e))) := by
  constructor
  · rw [List.forall_iff_forall_mem]
    intro ev hev
    have hc := download_writes_classified env target_dir appid endpoint fs0
      ev hev
    refine ⟨?_, hc.2⟩
    rcases hc.1 with h | h | h | h | h | h | h | ⟨h, _⟩ <;>
      rw [h] <;> simp
  · intro e hck hoe hms
    have htr : _download_from_manilua_backend env target_dir appid endpoint
        false =
        ([⟨mkRec [("status", Val.str "checking"),
              ("currentApi", Val.str ("manilua (" ++ endpoint ++ ")")),
              ("bytesRead", Val.nat 0), ("totalBytes", Val.nat 0),
              ("endpoint", Val.str endpoint)], false⟩,
          ⟨mkRec [("status", Val.str "downloading"),
              ("endpoint", Val.str endpoint), ("bytesRead", Val.nat 0),
              ("totalBytes", Val.nat 0)], false⟩,
          ⟨mkRec [("status", Val.str "downloading"),
              ("bytesRead", Val.nat 0),
              ("totalBytes", Val.nat env.contentLength)], false⟩] ++
          (progressWrites env.chunks env.progressTick env.contentLength).map
            (fun r => (⟨r, true⟩ : WriteEv))) ++
          innerExceptWrites e := by
      unfold _download_from_manilua_backend
      simp [hck, hoe, hms]
    unfold finalState
    rw [htr]
    exact applyWrites_inner_failed initStore appid _ e

theorem C1_witness :
    ((_download_from_manilua_backend c1wenv "target" 42 "manilua"
        false).Forall (fun ev =>
      ev.upd "status" ≠ some (Val.str "auth_failed") ∧
      ev.upd "requiresNewKey" = none)) ∧
    (c1wenv.clientOk = true ∧ c1wenv.openError = none ∧
      c1wenv.midStreamError = some "authentication failed" ∧
      finalState c1wenv "target" 42 "manilua" "status" =
        some (Val.str "failed") ∧
      finalState c1wenv "target" 42 "manilua" "error" =
        some (Val.str ("Download failed: " ++ "authentication failed"))) :=
  ⟨(C1_download_failure_generic_failed c1wenv "target" 42 "manilua"
      false).1,
    rfl, rfl, rfl,
    (C1_download_failure_generic_failed c1wenv "target" 42 "manilua"
      false).2 "authentication failed" rfl rfl rfl⟩

/-- C7: with the per-id scratch file absent on entry (fresh unique name,
removed by every earlier exit), every write that records the terminal
`failed` status happens with the scratch file no longer existing. -/
theorem C7_failed_implies_scratch_removed (env : DownloadEnv)
    (target_dir : String) (appid : Nat) (endpoint : String) :
    (_download_from_manilua_backend env target_dir appid endpoint
        false).Forall (fun ev =>
      ev.upd "status" = some (Val.str "failed") → ev.fileExists = false) := by
  rw [List.forall_iff_forall_mem]
  intro ev hev hst
  have hc := download_writes_classified env target_dir appid endpoint false
    ev hev
  rcases hc.1 with h | h | h | h | h | h | h | ⟨_, hf⟩
  · rw [h] at hst; exact absurd hst (by decide)
  · rw [h] at hst; exact absurd hst (by decide)
  · rw [h] at hst; exact absurd hst (by decide)
  · rw [h] at hst; exact absurd hst (by decide)
  · rw [h] at hst; exact absurd hst (by decide)
  · rw [h] at hst; exact absurd hst (by simp)
  · rw [h] at hst; exact absurd hst (by decide)
  · rcases hf with hf | hf <;> exact hf

theorem C7_witness :
    (_download_from_manilua_backend c7env "target" 7 "oureveryday"
        false).Forall (fun ev =>
      ev.upd "status" = some (Val.str "failed") → ev.fileExists = false) :=
  C7_failed_implies_scratch_removed c7env "target" 7 "oureveryday"

/-- C8: a transfer that completes having read zero bytes ends in the
terminal `failed` state with the empty-download error, and no write of the
invocation ever records `done`, for every item id and endpoint. -/
theorem C8_zero_byte_transfer_fails (env : DownloadEnv)
    (target_dir : String) (appid : Nat) (endpoint : String)
    (hck : env.clientOk = true) (hoe : env.openError = none)
    (hms : env.midStreamError = none) (hsum : env.chunks.sum = 0) :
    finalState env target_dir appid endpoint "status" =
      some (Val.str "failed") ∧
    finalState env target_dir appid endpoint "error" =
      some (Val.str "Download failed: Empty download from endpoint") ∧
    (_download_from_manilua_backend env target_dir appid endpoint
        false).Forall (fun ev =>
      ev.upd "status" ≠ some (Val.str "done")) := by
  have htr : _download_from_manilua_backend env target_dir appid endpoint
      false =
      ([⟨mkRec [("status", Val.str "checking"),
            ("currentApi", Val.str ("manilua (" ++ endpoint ++ ")")),
            ("bytesRead", Val.nat 0), ("totalBytes", Val.nat 0),
            ("endpoint", Val.str endpoint)], false⟩,
        ⟨mkRec [("status", Val.str "downloading"),
            ("endpoint", Val.str endpoint), ("bytesRead", Val.nat 0),
            ("totalBytes", Val.nat 0)], false⟩,
        ⟨mkRec [("status", Val.str "downloading"), ("bytesRead", Val.nat 0),
            ("totalBytes", Val.nat env.contentLength)], false⟩] ++
        (progressWrites env.chunks env.progressTick env.contentLength).map
          (fun r => (⟨r, true⟩ : WriteEv))) ++
        innerExceptWrites "Empty download from endpoint" := by
    unfold _download_from_manilua_backend
    simp [hck, hoe, hms, hsum]
  refine ⟨?_, ?_, ?_⟩
  · unfold finalState
    rw [htr]
    exact (applyWrites_inner_failed initStore appid _
      "Empty download from endpoint").1
  · unfold finalState
    rw [htr]
    exact (applyWrites_inner_failed initStore appid _
      "Empty download from endpoint").2
  · rw [List.forall_iff_forall_mem]
    intro ev hev
    rw [htr] at hev
    simp only [innerExceptWrites, List.mem_append, List.mem_cons,
      List.mem_nil_iff, or_false] at hev
    rcases hev with ((rfl | rfl | rfl) | hev) | rfl
    · exact (by decide :
        some (Val.str "checking") ≠ some (Val.str "done"))
    · exact (by decide :
        some (Val.str "downloading") ≠ some (Val.str "done"))
    · exact (by decide :
        some (Val.str "downloading") ≠ some (Val.str "done"))
    · obtain ⟨r', hr', rfl⟩ := List.mem_map.mp hev
      have hf := progressWrites_fields env.progressTick env.contentLength
        env.chunks 0 0 false r' hr'
      show r' "status" ≠ some (Val.str "done")
      rw [hf.1]
      decide
    · exact (by decide :
        some (Val.str "failed") ≠ some (Val.str "done"))

theorem C8_witness :
    c8env.clientOk = true ∧ c8env.openError = none ∧
    c8env.midStreamError = none ∧ c8env.chunks.sum = 0 ∧
    (finalState c8env "target" 9 "donation" "status" =
      some (Val.str "failed") ∧
    finalState c8env "target" 9 "donation" "error" =
      some (Val.str "Download failed: Empty download from endpoint") ∧
    (_download_from_manilua_backend c8env "target" 9 "donation"
        false).Forall (fun ev =>
      ev.upd "status" ≠ some (Val.str "done"))) :=
  ⟨rfl, rfl, rfl, rfl,
    C8_zero_byte_transfer_fails c8env "target" 9 "donation" rfl rfl rfl rfl⟩

end Manilua
